import Mathlib

/-!
# Governance engine: verified embedding

A shallow embedding, in Lean 4, of the governance/audit engine of the
`bedrock-agentcore-infra-template` repository (package
`agentcore-governance`): the integrity hasher, the audit-event
constructors, the correlation-chain reconstructor, the revocation and
integration registries, the authorization store and the least-privilege
analyzer. Python dictionaries become structures, the in-memory
registries become association lists (insertion-ordered, like `dict`),
wall-clock timestamps become explicit integer microsecond parameters
(`datetime` has microsecond resolution and `fromisoformat ∘ isoformat`
is the identity), Python floats in the analyzer and the SLA computation
become exact rationals, and `uuid4` values become explicit `String`
parameters. Fallible operations return `Except String`.

The SHA-256 function used by `integrity.compute_integrity_hash` is
implemented concretely (FIPS 180-4) over `Nat` with explicit `% 2^32`
reductions, so every hash a theorem mentions is computed by the kernel.
-/

namespace Governance

/-! ## SHA-256 over `Nat` (FIPS 180-4)

Words are naturals kept below `2^32` by explicit reduction; messages are
lists of byte values. This is the `hashlib.sha256` of the source, with
`hexdigest` rendered at the end. -/

/-- Reduce a natural to a 32-bit word. -/
def w32 (x : Nat) : Nat := x % 4294967296

/-- Right rotation of a 32-bit word by `n` places. -/
def rotr (n x : Nat) : Nat := w32 ((x >>> n) ||| (x <<< (32 - n)))

/-- Bitwise complement of a 32-bit word. -/
def wnot (x : Nat) : Nat := 4294967295 - x

/-- SHA-256 small sigma 0 (message schedule). -/
def ssig0 (x : Nat) : Nat := (rotr 7 x) ^^^ (rotr 18 x) ^^^ (x >>> 3)

/-- SHA-256 small sigma 1 (message schedule). -/
def ssig1 (x : Nat) : Nat := (rotr 17 x) ^^^ (rotr 19 x) ^^^ (x >>> 10)

/-- SHA-256 big sigma 0 (compression). -/
def bsig0 (x : Nat) : Nat := (rotr 2 x) ^^^ (rotr 13 x) ^^^ (rotr 22 x)

/-- SHA-256 big sigma 1 (compression). -/
def bsig1 (x : Nat) : Nat := (rotr 6 x) ^^^ (rotr 11 x) ^^^ (rotr 25 x)

/-- SHA-256 choice function. -/
def chf (e f g : Nat) : Nat := (e &&& f) ^^^ ((wnot e) &&& g)

/-- SHA-256 majority function. -/
def majf (a b c : Nat) : Nat := (a &&& b) ^^^ (a &&& c) ^^^ (b &&& c)

/-- The 64 SHA-256 round constants. -/
def sha256K : List Nat :=
  [1116352408, 1899447441, 3049323471, 3921009573, 961987163, 1508970993,
   2453635748, 2870763221, 3624381080, 310598401, 607225278, 1426881987,
   1925078388, 2162078206, 2614888103, 3248222580, 3835390401, 4022224774,
   264347078, 604807628, 770255983, 1249150122, 1555081692, 1996064986,
   2554220882, 2821834349, 2952996808, 3210313671, 3336571891, 3584528711,
   113926993, 338241895, 666307205, 773529912, 1294757372, 1396182291,
   1695183700, 1986661051, 2177026350, 2456956037, 2730485921, 2820302411,
   3259730800, 3345764771, 3516065817, 3600352804, 4094571909, 275423344,
   430227734, 506948616, 659060556, 883997877, 958139571, 1322822218,
   1537002063, 1747873779, 1955562222, 2024104815, 2227730452, 2361852424,
   2428436474, 2756734187, 3204031479, 3329325298]

/-- The SHA-256 initial hash value. -/
def sha256H0 : List Nat :=
  [1779033703, 3144134277, 1013904242, 2773480762,
   1359893119, 2600822924, 528734635, 1541459225]

/-- One step of message-schedule extension; the accumulator holds the
schedule words most recent first. -/
def schedStep (acc : List Nat) : List Nat :=
  w32 (ssig1 (acc.getD 1 0) + acc.getD 6 0 + ssig0 (acc.getD 14 0) + acc.getD 15 0) :: acc

/-- Extend the 16 block words to the 64-word message schedule. -/
def msgSchedule (ws : List Nat) : List Nat :=
  (Nat.rec (motive := fun _ => List Nat) ws.reverse (fun _ acc => schedStep acc) 48).reverse

/-- SHA-256 working state. -/
structure Sha256State where
  a : Nat
  b : Nat
  c : Nat
  d : Nat
  e : Nat
  f : Nat
  g : Nat
  h : Nat

/-- One compression round, consuming one round constant and one schedule word. -/
def sha256Round (st : Sha256State) (kw : Nat × Nat) : Sha256State :=
  let t1 := w32 (st.h + bsig1 st.e + chf st.e st.f st.g + kw.1 + kw.2)
  let t2 := w32 (bsig0 st.a + majf st.a st.b st.c)
  { a := w32 (t1 + t2), b := st.a, c := st.b, d := st.c,
    e := w32 (st.d + t1), f := st.e, g := st.f, h := st.g }

/-- Compress one 16-word block into the running 8-word hash value. -/
def sha256Block (hv : List Nat) (block : List Nat) : List Nat :=
  let init : Sha256State :=
    { a := hv.getD 0 0, b := hv.getD 1 0, c := hv.getD 2 0, d := hv.getD 3 0,
      e := hv.getD 4 0, f := hv.getD 5 0, g := hv.getD 6 0, h := hv.getD 7 0 }
  let st := (sha256K.zip (msgSchedule block)).foldl sha256Round init
  [w32 (hv.getD 0 0 + st.a), w32 (hv.getD 1 0 + st.b), w32 (hv.getD 2 0 + st.c),
   w32 (hv.getD 3 0 + st.d), w32 (hv.getD 4 0 + st.e), w32 (hv.getD 5 0 + st.f),
   w32 (hv.getD 6 0 + st.g), w32 (hv.getD 7 0 + st.h)]

/-- MD-strengthening pad: append `0x80`, zeros, and the 64-bit big-endian
bit length, to a multiple of 64 bytes. -/
def sha256Pad (msg : List Nat) : List Nat :=
  let len := msg.length
  let zeros := (64 - (len + 9) % 64) % 64
  msg ++ 128 :: List.replicate zeros 0 ++
    ((List.range 8).map fun i => ((8 * len) >>> (8 * (7 - i))) &&& 255)

/-- Split a byte list into 64-byte chunks, with explicit fuel so the
recursion is structural (one element is consumed per step, so a fuel of
`l.length` suffices). -/
def chunk64Fuel : Nat → List Nat → List (List Nat)
  | 0, _ => []
  | _, [] => []
  | fuel + 1, x :: xs => ((x :: xs).take 64) :: chunk64Fuel fuel ((x :: xs).drop 64)

/-- Split a byte list into 64-byte chunks. -/
def chunk64 (l : List Nat) : List (List Nat) := chunk64Fuel l.length l

/-- Pack bytes into big-endian 32-bit words. -/
def bytesToWords : List Nat → List Nat
  | b0 :: b1 :: b2 :: b3 :: rest =>
      (((b0 <<< 24) ||| (b1 <<< 16)) ||| ((b2 <<< 8) ||| b3)) :: bytesToWords rest
  | _ => []

/-- Unpack 32-bit words into big-endian bytes. -/
def wordsToBytes (ws : List Nat) : List Nat :=
  ws.foldr (fun w acc => ((w >>> 24) &&& 255) :: ((w >>> 16) &&& 255) ::
    ((w >>> 8) &&& 255) :: (w &&& 255) :: acc) []

/-- SHA-256 digest of a byte list, as 32 bytes. -/
def sha256Bytes (msg : List Nat) : List Nat :=
  wordsToBytes ((chunk64 (sha256Pad msg)).foldl
    (fun hv block => sha256Block hv (bytesToWords block)) sha256H0)

/-- Insert an element into a list, before the first element not strictly
smaller; combined with `sortStable` this is a stable sort, which is all
Python's `sorted` / `list.sort` guarantee beyond the ordering. -/
def insertStable {α : Type} (lt : α → α → Bool) (e : α) : List α → List α
  | [] => [e]
  | x :: xs => if lt x e then x :: insertStable lt e xs else e :: x :: xs

/-- Stable insertion sort by a strict comparison: extensionally the sort
Python performs (stable, ordered by the key). -/
def sortStable {α : Type} (lt : α → α → Bool) (l : List α) : List α :=
  l.foldr (insertStable lt) []

/-- Collapse duplicates, keeping first occurrences (a Python `set`
collapses duplicates; the order is irrelevant because a sort follows). -/
def dedupAcc (seen : List String) : List String → List String
  | [] => []
  | x :: xs => if seen.contains x then dedupAcc seen xs else x :: dedupAcc (x :: seen) xs

/-- UTF-8 encoding of one character, as Python's `str.encode("utf-8")`. -/
def charUtf8 (c : Char) : List Nat :=
  let n := c.toNat
  if n < 128 then [n]
  else if n < 2048 then [192 ||| (n >>> 6), 128 ||| (n &&& 63)]
  else if n < 65536 then
    [224 ||| (n >>> 12), 128 ||| ((n >>> 6) &&& 63), 128 ||| (n &&& 63)]
  else
    [240 ||| (n >>> 18), 128 ||| ((n >>> 12) &&& 63),
     128 ||| ((n >>> 6) &&& 63), 128 ||| (n &&& 63)]

/-- UTF-8 encoding of a string. -/
def utf8Bytes (s : String) : List Nat :=
  s.data.foldr (fun c acc => charUtf8 c ++ acc) []

/-- Render one byte as two lowercase hex characters. -/
def byteHex (b : Nat) : List Char :=
  let digits := "0123456789abcdef".data
  [digits.getD (b / 16) '0', digits.getD (b % 16) '0']

/-- `hashlib.sha256(s.encode("utf-8")).hexdigest()`. -/
def sha256Hex (s : String) : String :=
  String.mk ((sha256Bytes (utf8Bytes s)).foldr (fun b acc => byteHex b ++ acc) [])

set_option maxRecDepth 10000 in
example : sha256Hex "abc" =
    "ba7816bf8f01cfea414140de5dae2223b00361a396177a9cb410ff61f20015ad" := by
  decide

/-! ## `integrity.py` — the integrity hasher

```python
def compute_integrity_hash(fields: Iterable[str]) -> str:
    concatenated = "|".join(fields)
    digest = hashlib.sha256(concatenated.encode("utf-8"))
    return digest.hexdigest()
```
-/

/-- `"|".join(fields)`: the pre-image string that `compute_integrity_hash`
feeds to SHA-256. -/
def integrity_preimage (fields : List String) : String :=
  match fields with
  | [] => ""
  | f :: rest => rest.foldl (fun acc g => acc ++ "|" ++ g) f

/-- `integrity.compute_integrity_hash`. -/
def compute_integrity_hash (fields : List String) : String :=
  sha256Hex (integrity_preimage fields)

/-- `integrity_preimage` at the character level: the same left fold, over
the character lists underlying the field strings. -/
def joinPipe : List (List Char) → List Char
  | [] => []
  | x :: rest => rest.foldl (fun acc g => acc ++ '|' :: g) x

/-! ## `analyzer.py` — `compute_least_privilege_score`

Python statement values for `Action`/`Resource` are either a string or a
list of strings (`if isinstance(actions, str): actions = [actions]`); an
absent key defaults to the empty list. Floats become exact rationals. -/

/-- A JSON value that is either one string or a list of strings, as the
`Action`/`Resource` fields of an IAM statement. -/
inductive StrOrList where
  | str (s : String)
  | list (l : List String)
deriving DecidableEq

/-- The `if isinstance(x, str): x = [x]` normalization. -/
def StrOrList.toList : StrOrList → List String
  | .str s => [s]
  | .list l => l

/-- One IAM policy statement; a missing `Action`/`Resource` key is the
empty list (`stmt_dict.get(..., [])`). -/
structure Statement where
  effect : String
  action : StrOrList
  resource : StrOrList
deriving DecidableEq

/-- One IAM policy document: its `Statement` value, normalized to a list
(`doc.get("Statement", [])`, wrapped in a singleton when not a list). -/
structure PolicyDoc where
  statement : List Statement
deriving DecidableEq

/-- Python `min` over exact rationals: returns the first argument on ties. -/
def pymin (a b : ℚ) : ℚ := if b < a then b else a

/-- Python `max` over exact rationals: returns the first argument on ties. -/
def pymax (a b : ℚ) : ℚ := if a < b then b else a

/-- The four counters the scoring loop accumulates. -/
structure ScoreAcc where
  wildcard_action_count : Nat
  wildcard_resource_count : Nat
  narrow_resource_count : Nat
  total_statements : Nat
deriving DecidableEq

/-- Whether a resource string is "narrow": colon-qualified and
wildcard-free (`":" in res_str and "*" not in res_str`; single-character
Python substring tests are membership in the character list). -/
def isNarrowResource (r : String) : Bool :=
  r.data.contains ':' && ! r.data.contains '*'

/-- The inner resource loop body of `compute_least_privilege_score`:
count resources that are exactly `"*"` and, in the `elif`, the narrow
resources. -/
def resourceStep (acc : ScoreAcc) (r : String) : ScoreAcc :=
  if r = "*" then
    { acc with wildcard_resource_count := acc.wildcard_resource_count + 1 }
  else if isNarrowResource r then
    { acc with narrow_resource_count := acc.narrow_resource_count + 1 }
  else acc

/-- The loop body of `compute_least_privilege_score` for one statement:
skip non-`Allow` statements, count wildcard actions, then run the
resource loop. -/
def scoreStmtStep (acc : ScoreAcc) (stmt : Statement) : ScoreAcc :=
  if stmt.effect ≠ "Allow" then acc
  else
    let acc := { acc with total_statements := acc.total_statements + 1 }
    let acc := { acc with wildcard_action_count := acc.wildcard_action_count +
      (stmt.action.toList.countP fun a => a.data.contains '*') }
    stmt.resource.toList.foldl resourceStep acc

/-- `analyzer.compute_least_privilege_score`: fold the counting loop over
every statement of every document, then apply penalties, the capped
narrow-resource bonus, and the `[0, 100]` clamp. -/
def compute_least_privilege_score (policy_documents : List PolicyDoc) : ℚ :=
  let acc := policy_documents.foldl
    (fun acc doc => doc.statement.foldl scoreStmtStep acc)
    ⟨0, 0, 0, 0⟩
  let score : ℚ := 100 - acc.wildcard_action_count * 5 - acc.wildcard_resource_count * 10
  let score :=
    if acc.total_statements > 0 then
      score + pymin 10 ((acc.narrow_resource_count : ℚ) / acc.total_statements * 10)
    else score
  pymax 0 (pymin 100 score)

/-- The `Allow` statements of a document list, flattened in order. -/
def allowStatements (docs : List PolicyDoc) : List Statement :=
  (docs.foldr (fun d acc => d.statement ++ acc) []).filter (fun s => s.effect = "Allow")

/-- Reference definition following the words of the spec (§4.7): start at
100, subtract 5 per wildcard-containing action of an `Allow` statement and
10 per `Allow` statement whose resource is exactly `"*"`, add back bonus
points proportional (10 × fraction) to the fraction of statements with a
non-wildcard, colon-qualified resource, and clamp to `[0, 100]`. -/
def scoreLeastPrivilege_spec (docs : List PolicyDoc) : ℚ :=
  let stmts := allowStatements docs
  let wa := (stmts.map fun s => s.action.toList.countP fun a => a.data.contains '*').sum
  let wrStmts := stmts.countP fun s => s.resource.toList = ["*"]
  let narrowStmts := stmts.countP fun s => s.resource.toList.any isNarrowResource
  let score : ℚ := 100 - wa * 5 - wrStmts * 10
  let score :=
    if stmts.length > 0 then score + (narrowStmts : ℚ) / stmts.length * 10
    else score
  pymax 0 (pymin 100 score)

/-- Reference definition restating the code's actual counting: the 10-point
penalty applies per resource entry equal to `"*"` (not per statement), and
the bonus is `min(10, 10 × narrow resource entries / Allow statements)`
counting narrow resource entries (not statements). -/
def scoreLeastPrivilege_entrywise (docs : List PolicyDoc) : ℚ :=
  let stmts := allowStatements docs
  let wa := (stmts.map fun s => s.action.toList.countP fun a => a.data.contains '*').sum
  let wr := (stmts.map fun s => s.resource.toList.countP fun r => r = "*").sum
  let narrow := (stmts.map fun s =>
    s.resource.toList.countP fun r => r ≠ "*" && isNarrowResource r).sum
  let score : ℚ := 100 - wa * 5 - wr * 10
  let score :=
    if stmts.length > 0 then score + pymin 10 ((narrow : ℚ) / stmts.length * 10)
    else score
  pymax 0 (pymin 100 score)

/-! ## `revocation.py` — the revocation registry

The module-level `dict[str, dict]` registry becomes an insertion-ordered
association list. Timestamps are integer microseconds (the resolution of
`datetime`; `fromisoformat ∘ isoformat` is the identity, so storing the
microsecond count is faithful). `datetime.now(UTC)` becomes an explicit
`now_us` parameter and `uuid.uuid4().hex` an explicit `fresh_id`
parameter. Optional record fields that Python adds by `update` are
`Option`-valued, `none` before the update. Statuses stay the strings of
the source. File persistence (`_save_registry_to_file`) is out of scope
(a no-op unless a registry file is configured). -/

/-- One revocation record, as built by `create_revocation_request` and
updated by `mark_revocation_propagated` / `mark_revocation_failed`. -/
structure RevocationRecord where
  id : String
  subject_type : String
  subject_id : String
  scope : String
  reason : String
  initiated_by : String
  initiated_at_us : Int
  propagated_at_us : Option Int
  status : String
  sla_target_seconds : Int
  propagation_latency_ms : Option Int
  sla_met : Option Bool
  sla_status : Option String
  error : Option String
deriving DecidableEq

/-- The in-memory `_revocations_registry`, insertion-ordered like a Python
`dict`. -/
abbrev RevRegistry := List (String × RevocationRecord)

/-- `dict` lookup by key. -/
def RevRegistry.lookup (reg : RevRegistry) (id : String) : Option RevocationRecord :=
  match reg with
  | [] => none
  | (k, r) :: rest => if k = id then some r else RevRegistry.lookup rest id

/-- In-place update of the record stored under a key (a Python `dict`
update keeps the key's position; keys are unique, so replacing the first
match is the whole update). -/
def RevRegistry.update (reg : RevRegistry) (id : String) (r' : RevocationRecord) :
    RevRegistry :=
  match reg with
  | [] => []
  | (k, v) :: rest =>
    if k = id then (id, r') :: rest else (k, v) :: RevRegistry.update rest id r'

/-- The payload of `create_revocation_request`; a `none` field is a key
absent from the request dictionary. -/
structure RevocationPayload where
  subjectType : Option String
  subjectId : Option String
  scope : Option String
  reason : Option String
  initiatedBy : Option String
deriving DecidableEq

/-- `DEFAULT_SLA_TARGET_SECONDS = 300`. -/
def DEFAULT_SLA_TARGET_SECONDS : Int := 300

/-- `revocation.create_revocation_request`: validate required fields and
the `subjectType` / `scope` enums, then store a `pending` record. -/
def create_revocation_request (reg : RevRegistry) (payload : RevocationPayload)
    (fresh_id : String) (now_us : Int) : Except String (RevRegistry × String) :=
  match payload.subjectType, payload.subjectId, payload.scope with
  | none, _, _ => .error "Missing required field: subjectType"
  | some _, none, _ => .error "Missing required field: subjectId"
  | some _, some _, none => .error "Missing required field: scope"
  | some st, some sid, some sc =>
    if st ∉ ["user", "integration", "tool", "agent", "principal"] then
      .error "Invalid subjectType"
    else if sc ∉ ["user_access", "tool_access", "integration_access", "principal_assume"] then
      .error "Invalid scope"
    else
      let record : RevocationRecord :=
        { id := fresh_id
          subject_type := st
          subject_id := sid
          scope := sc
          reason := (payload.reason).getD ""
          initiated_by := (payload.initiatedBy).getD "unknown"
          initiated_at_us := now_us
          propagated_at_us := none
          status := "pending"
          sla_target_seconds := DEFAULT_SLA_TARGET_SECONDS
          propagation_latency_ms := none
          sla_met := none
          sla_status := none
          error := none }
      .ok (reg ++ [(fresh_id, record)], fresh_id)

/-- The record update `mark_revocation_propagated` performs once its
guards pass: latency from `initiated_at` to now, the SLA verdict, and
the transition to `complete`. On exact values
`latency_seconds <= sla_target_seconds` is
`latency_us ≤ target_s · 10^6`, and `int(latency_seconds * 1000)`
truncates toward zero, which is `Int.tdiv latency_us 1000` here. -/
def propagateUpdate (r : RevocationRecord) (now_us : Int) : RevocationRecord :=
  let latency_us : Int := now_us - r.initiated_at_us
  let latency_ms : Int := Int.tdiv latency_us 1000
  let sla_met : Bool := decide (latency_us ≤ r.sla_target_seconds * 1000000)
  { r with
    propagated_at_us := some now_us
    status := "complete"
    propagation_latency_ms := some latency_ms
    sla_met := some sla_met
    sla_status := some (if sla_met then "met" else "breached") }

/-- `revocation.mark_revocation_propagated` proper: dispatch on the
lookup and the `complete` guard around `propagateUpdate`. -/
def mark_revocation_propagated (reg : RevRegistry) (id : String) (now_us : Int) :
    Except String (RevRegistry × RevocationRecord) :=
  match reg.lookup id with
  | none => .error "Revocation not found"
  | some r =>
    if r.status = "complete" then .error "Revocation already propagated"
    else
      let r' := propagateUpdate r now_us
      .ok (reg.update id r', r')

/-- `revocation.mark_revocation_failed`: refuse unknown ids; otherwise
set `status = "failed"` and record the error, whatever the current
status. -/
def mark_revocation_failed (reg : RevRegistry) (id : String) (error : String) :
    Except String (RevRegistry × RevocationRecord) :=
  match reg.lookup id with
  | none => .error "Revocation not found"
  | some r =>
    let r' : RevocationRecord := { r with status := "failed", error := some error }
    .ok (reg.update id r', r')

/-- `revocation.is_subject_revoked`: scan the registry for a record of
this subject whose status is `pending` or `complete`. -/
def is_subject_revoked (reg : RevRegistry) (subject_type subject_id : String) : Bool :=
  reg.any fun p =>
    p.2.subject_type = subject_type && p.2.subject_id = subject_id &&
      (p.2.status = "pending" || p.2.status = "complete")

/-! ## `integrations.py` — the integration registry

Same modelling conventions as the revocation registry. The audit events
and the correlation context the API handler emits around the registry
call are side effects on other stores and do not touch the integration
registry, so the handler model keeps only its validation and the
registry call. -/

/-- One integration record. -/
structure IntegrationRecord where
  id : String
  name : String
  justification : String
  requested_targets : List String
  approved_targets : List String
  approved_by : Option String
  approved_at_us : Option Int
  expires_at_us : Option Int
  status : String
  requested_at_us : Int
  revoked_at_us : Option Int
  revocation_reason : Option String
deriving DecidableEq

/-- The in-memory `_integrations_registry`. -/
abbrev IntRegistry := List (String × IntegrationRecord)

/-- `dict` lookup by key (`get_integration`). -/
def IntRegistry.lookup (reg : IntRegistry) (id : String) : Option IntegrationRecord :=
  match reg with
  | [] => none
  | (k, r) :: rest => if k = id then some r else IntRegistry.lookup rest id

/-- In-place update of the record stored under a key. -/
def IntRegistry.update (reg : IntRegistry) (id : String) (r' : IntegrationRecord) :
    IntRegistry :=
  match reg with
  | [] => []
  | (k, v) :: rest =>
    if k = id then (id, r') :: rest else (k, v) :: IntRegistry.update rest id r'

/-- The payload of an integration request; a `none` field is a key absent
from the request dictionary. -/
structure IntegrationPayload where
  name : Option String
  justification : Option String
  requestedTargets : Option (List String)
deriving DecidableEq

/-- The fresh `pending` record `request_integration` stores. -/
def newIntegrationRecord (fresh_id nm ju : String) (targets : List String)
    (now_us : Int) : IntegrationRecord :=
  { id := fresh_id
    name := nm
    justification := ju
    requested_targets := targets
    approved_targets := []
    approved_by := none
    approved_at_us := none
    expires_at_us := none
    status := "pending"
    requested_at_us := now_us
    revoked_at_us := none
    revocation_reason := none }

/-- `integrations.request_integration`: checks only that the three
required keys are present (no emptiness check), then stores a `pending`
record. -/
def request_integration (reg : IntRegistry) (payload : IntegrationPayload)
    (fresh_id : String) (now_us : Int) : Except String (IntRegistry × String) :=
  match payload.name, payload.justification, payload.requestedTargets with
  | none, _, _ => .error "Missing required field: name"
  | some _, none, _ => .error "Missing required field: justification"
  | some _, some _, none => .error "Missing required field: requestedTargets"
  | some nm, some ju, some targets =>
    .ok (reg ++ [(fresh_id, newIntegrationRecord fresh_id nm ju targets now_us)], fresh_id)

/-- `integration_handlers.handle_integration_request`: validate that the
required keys are present and that `requestedTargets` is a non-empty
list, then delegate to `request_integration`. -/
def handle_integration_request (reg : IntRegistry) (payload : IntegrationPayload)
    (fresh_id : String) (now_us : Int) : Except String (IntRegistry × String) :=
  match payload.name, payload.justification, payload.requestedTargets with
  | none, _, _ => .error "Missing required field: name"
  | some _, none, _ => .error "Missing required field: justification"
  | some _, some _, none => .error "Missing required field: requestedTargets"
  | some _, some _, some targets =>
    if targets = [] then .error "requestedTargets cannot be empty"
    else request_integration reg payload fresh_id now_us

/-- `integrations.approve_integration`: only legal on a `pending` record;
`expires_at` is set only when `expiry_days` is supplied, non-zero and
positive (`if expiry_days and expiry_days > 0`; a day is 86400·10^6 µs),
and the record becomes `active`. -/
def approve_integration (reg : IntRegistry) (integration_id : String)
    (approved_targets : List String) (expiry_days : Option Int) (approved_by : String)
    (now_us : Int) : Except String IntRegistry :=
  match reg.lookup integration_id with
  | none => .error "Integration not found"
  | some r =>
    if r.status ≠ "pending" then .error "Integration not in pending status"
    else
      let expires_at_us : Option Int :=
        match expiry_days with
        | some d => if d ≠ 0 ∧ d > 0 then some (now_us + d * 86400000000) else none
        | none => none
      let r' : IntegrationRecord :=
        { r with
          approved_targets := approved_targets
          approved_by := some approved_by
          approved_at_us := some now_us
          expires_at_us := expires_at_us
          status := "active" }
      .ok (reg.update integration_id r')

/-- `integrations.check_target_authorized`: `false` for a missing or
non-`active` record; on an `active` record whose `expires_at` is strictly
past, flip the status to `expired` (the observable side effect) and
return `false`; otherwise test exact membership of the target in
`approved_targets`. Returns the result together with the
(possibly updated) registry. -/
def check_target_authorized (reg : IntRegistry) (integration_id : String)
    (target : String) (now_us : Int) : Bool × IntRegistry :=
  match reg.lookup integration_id with
  | none => (false, reg)
  | some r =>
    if r.status ≠ "active" then (false, reg)
    else
      match r.expires_at_us with
      | some e =>
        if now_us > e then
          (false, reg.update integration_id { r with status := "expired" })
        else (r.approved_targets.contains target, reg)
      | none => (r.approved_targets.contains target, reg)

/-! ## `authorization.py` — the agent→tools authorization store

`_authorization_store` and `_authorization_history` are module-level
dictionaries; they become association lists inside one state record.
`datetime.now(UTC)` becomes an explicit timestamp parameter. -/

/-- One entry of `_authorization_history`:
the differential change record `set_authorized_tools` returns. -/
structure ChangeRecord where
  timestamp : String
  agent_id : String
  added : List String
  removed : List String
  unchanged : List String
  reason : Option String
  total_before : Nat
  total_after : Nat
deriving DecidableEq

/-- The two module-level authorization dictionaries. -/
structure AuthState where
  store : List (String × List String)
  history : List (String × List ChangeRecord)
deriving DecidableEq

/-- `dict` lookup by key. -/
def alookup {α : Type} (l : List (String × α)) (k : String) : Option α :=
  match l with
  | [] => none
  | (k', v) :: rest => if k' = k then some v else alookup rest k

/-- `dict` assignment: replace in place if the key exists, else append. -/
def astore {α : Type} (l : List (String × α)) (k : String) (v : α) : List (String × α) :=
  match l with
  | [] => [(k, v)]
  | (k', v') :: rest => if k' = k then (k, v) :: rest else (k', v') :: astore rest k v

/-- `authorization.get_authorized_tools`:
the stored list, or `[]` for an unknown agent. -/
def get_authorized_tools (st : AuthState) (agent_id : String) : List String :=
  (alookup st.store agent_id).getD []

/-- `sorted(set(a) - set(b))` over string lists: the distinct elements of
`a` not in `b`, in ascending order. -/
def sortedSetDiff (a b : List String) : List String :=
  sortStable (fun x y => decide (x < y)) (dedupAcc [] (a.filter fun x => ¬ b.contains x))

/-- `sorted(set(a) & set(b))`. -/
def sortedSetInter (a b : List String) : List String :=
  sortStable (fun x y => decide (x < y)) (dedupAcc [] (a.filter fun x => b.contains x))

/-- `authorization.set_authorized_tools`: compute the differential against
the current value, replace the current value, append the change record to
the agent's history, and return it. -/
def set_authorized_tools (st : AuthState) (agent_id : String) (tools : List String)
    (reason : Option String) (timestamp : String) : AuthState × ChangeRecord :=
  let previous_tools := (alookup st.store agent_id).getD []
  let change_record : ChangeRecord :=
    { timestamp := timestamp
      agent_id := agent_id
      added := sortedSetDiff tools previous_tools
      removed := sortedSetDiff previous_tools tools
      unchanged := sortedSetInter previous_tools tools
      reason := reason
      total_before := previous_tools.length
      total_after := tools.length }
  let hist := (alookup st.history agent_id).getD []
  ({ store := astore st.store agent_id tools
     history := astore st.history agent_id (hist ++ [change_record]) },
   change_record)

/-! ## `evidence.py` — audit events and chain reconstruction

`construct_audit_event` is modelled on its core path (no
`additional_fields` / `metadata` / `principal_id` variants, which only
add extra top-level keys and leave the hashed fields unchanged);
`uuid` and `datetime.now` become explicit parameters. An event record
keeps exactly the keys the reconstructor reads. -/

/-- An audit event, with the fields `reconstruct_correlation_chain`
reads; `integrity_hash` is an arbitrary string so that post-construction
tampering is expressible. -/
structure AuditEvent where
  id : String
  event_type : String
  timestamp : String
  correlation_id : String
  principal_chain : List String
  outcome : String
  latency_ms : Int
  integrity_hash : String
deriving DecidableEq

/-- The fixed hash-field order of `construct_audit_event`:
`[event_id, event_type, timestamp, correlation_id,
"|".join(principal_chain), outcome, str(latency_ms)]`. -/
def audit_hash_fields (event_id event_type timestamp correlation_id : String)
    (principal_chain : List String) (outcome : String) (latency_ms : Int) : List String :=
  [event_id, event_type, timestamp, correlation_id,
   integrity_preimage principal_chain, outcome, toString latency_ms]

/-- `evidence.construct_audit_event` (core path): stamp the identity
fields and the integrity hash over the fixed field order. -/
def construct_audit_event (event_id timestamp event_type correlation_id : String)
    (principal_chain : List String) (outcome : String) (latency_ms : Int) : AuditEvent :=
  { id := event_id
    event_type := event_type
    timestamp := timestamp
    correlation_id := correlation_id
    principal_chain := principal_chain
    outcome := outcome
    latency_ms := latency_ms
    integrity_hash := compute_integrity_hash
      (audit_hash_fields event_id event_type timestamp correlation_id
        principal_chain outcome latency_ms) }

/-- Recompute an event's integrity hash from the same fixed field order
used at construction — what verification has to compare against the
stored `integrity_hash`. -/
def recompute_audit_hash (e : AuditEvent) : String :=
  compute_integrity_hash
    (audit_hash_fields e.id e.event_type e.timestamp e.correlation_id
      e.principal_chain e.outcome e.latency_ms)

/-- The result fields of `reconstruct_correlation_chain` that the claims
are about. -/
structure Reconstruction where
  correlation_id : String
  event_count : Nat
  events : List AuditEvent
  integrity_failures : List String
deriving DecidableEq

/-- `evidence.reconstruct_correlation_chain` (on a supplied event list):
filter to the matching correlation id, sort stably by timestamp, and
collect integrity failures. The integrity check of the source is
`if "integrity_hash" in event and not event["integrity_hash"]`: an event
is flagged only when its stored hash is the empty (falsy) string — no
hash is recomputed. -/
def reconstruct_correlation_chain (correlation_id : String) (events : List AuditEvent) :
    Reconstruction :=
  let chain_events := events.filter fun e => e.correlation_id = correlation_id
  let chain_events := sortStable (fun a b => decide (a.timestamp < b.timestamp)) chain_events
  let integrity_failures :=
    ((chain_events.filter fun e => e.integrity_hash = "").map fun e => e.id)
  { correlation_id := correlation_id
    event_count := chain_events.length
    events := chain_events
    integrity_failures := integrity_failures }

/-! ## Concrete fixtures

Sample records and payloads at which the quantified theorems are
instantiated and the divergences exhibited. -/

/-- A well-formed revocation request payload. -/
def samplePayload : RevocationPayload :=
  { subjectType := some "user", subjectId := some "user-123",
    scope := some "user_access", reason := none, initiatedBy := none }

/-- The `pending` record `create_revocation_request` stores for
`samplePayload` at time 0 under id `rev-1`. -/
def pendingRec : RevocationRecord :=
  { id := "rev-1", subject_type := "user", subject_id := "user-123",
    scope := "user_access", reason := "", initiated_by := "unknown",
    initiated_at_us := 0, propagated_at_us := none, status := "pending",
    sla_target_seconds := DEFAULT_SLA_TARGET_SECONDS,
    propagation_latency_ms := none, sla_met := none, sla_status := none,
    error := none }

/-- A revocation record in `failed` status. -/
def failedRec : RevocationRecord := { pendingRec with id := "rev-2", status := "failed" }

/-- A revocation record in `complete` status. -/
def completeRec : RevocationRecord := { pendingRec with id := "rev-3", status := "complete" }

/-- An integration request payload whose `requestedTargets` is the empty
list (every required key present). -/
def emptyTargetsPayload : IntegrationPayload :=
  { name := some "test-integration", justification := some "Some reason",
    requestedTargets := some [] }

/-- A pending integration record. -/
def intPending : IntegrationRecord :=
  newIntegrationRecord "int-1" "test-integration" "Testing"
    ["https://api.example.com/a", "https://api.example.com/b"] 0

/-- An active integration record without expiry, approving target `a`. -/
def intActive : IntegrationRecord :=
  { intPending with
    status := "active"
    approved_targets := ["https://api.example.com/a"]
    approved_by := some "admin@example.com"
    approved_at_us := some 1000000 }

/-- An active integration record expiring at 2 000 000 µs. -/
def intActiveExpiring : IntegrationRecord := { intActive with expires_at_us := some 2000000 }

/-- An audit event constructed on the core path. -/
def c1Event : AuditEvent :=
  construct_audit_event "ev-1" "2025-11-05T12:00:00+00:00" "agent_invocation"
    "corr-1" [] "success" 0

/-- `c1Event` with the `outcome` business field modified after
construction, the stored hash left as it was. -/
def c1Tampered : AuditEvent := { c1Event with outcome := "failure" }

/-- One document, two `Allow` statements: one with two narrow resources,
one with the bare wildcard resource. -/
def bonusDoc : PolicyDoc :=
  { statement :=
      [{ effect := "Allow", action := .str "a", resource := .list ["arn:a", "arn:b"] },
       { effect := "Allow", action := .str "b", resource := .str "*" }] }

/-- The spec's end-to-end scoring example:
one `Allow` statement with `Action "s3:*"` and `Resource "*"`. -/
def s3Doc : PolicyDoc :=
  { statement := [{ effect := "Allow", action := .str "s3:*", resource := .str "*" }] }

/-! ## Registry helper lemmas -/

/-- Updating a present key makes lookup return the new record. -/
theorem rev_lookup_update_self (reg : RevRegistry) (id : String)
    (r r' : RevocationRecord) (h : reg.lookup id = some r) :
    (reg.update id r').lookup id = some r' := by
  induction reg with
  | nil => simp [RevRegistry.lookup] at h
  | cons p rest ih =>
    obtain ⟨k, v⟩ := p
    by_cases hk : k = id
    · subst hk
      simp [RevRegistry.update, RevRegistry.lookup]
    · simp only [RevRegistry.lookup, hk, if_false] at h
      simp only [RevRegistry.update, hk, if_false, RevRegistry.lookup]
      exact ih h

/-- Updating a present key makes lookup return the new record. -/
theorem int_lookup_update_self (reg : IntRegistry) (id : String)
    (r r' : IntegrationRecord) (h : reg.lookup id = some r) :
    (reg.update id r').lookup id = some r' := by
  induction reg with
  | nil => simp [IntRegistry.lookup] at h
  | cons p rest ih =>
    obtain ⟨k, v⟩ := p
    by_cases hk : k = id
    · subst hk
      simp [IntRegistry.update, IntRegistry.lookup]
    · simp only [IntRegistry.lookup, hk, if_false] at h
      simp only [IntRegistry.update, hk, if_false, IntRegistry.lookup]
      exact ih h

/-- `dict` assignment followed by lookup of the same key. -/
theorem alookup_astore_self {α : Type} (l : List (String × α)) (k : String) (v : α) :
    alookup (astore l k v) k = some v := by
  induction l with
  | nil => simp [astore, alookup]
  | cons p rest ih =>
    by_cases hk : p.1 = k
    · simp [astore, alookup, hk]
    · simp [astore, alookup, hk, ih]

/-! ## C6 — `is_subject_revoked` -/

/-- C6: `is_subject_revoked` is true exactly when the registry holds a
record for the subject whose status is `pending` or `complete`; it is
true immediately after a successful `create_revocation_request` for that
subject (the new record is `pending`), and false when every record of
the subject is `failed`. -/
theorem C6_is_subject_revoked_characterization :
    (∀ (reg : RevRegistry) (st sid : String),
      is_subject_revoked reg st sid = true ↔
        ∃ p ∈ reg, p.2.subject_type = st ∧ p.2.subject_id = sid ∧
          (p.2.status = "pending" ∨ p.2.status = "complete")) ∧
    (∀ (reg reg' : RevRegistry) (payload : RevocationPayload) (fid : String)
        (now : Int) (st sid rid : String),
      create_revocation_request reg payload fid now = .ok (reg', rid) →
      payload.subjectType = some st → payload.subjectId = some sid →
      is_subject_revoked reg' st sid = true) ∧
    (∀ (reg : RevRegistry) (st sid : String),
      (∀ p ∈ reg, p.2.subject_type = st → p.2.subject_id = sid →
        p.2.status = "failed") →
      is_subject_revoked reg st sid = false) := by
  refine ⟨?_, ?_, ?_⟩
  · intro reg st sid
    simp only [is_subject_revoked, List.any_eq_true, Bool.and_eq_true,
      Bool.or_eq_true, decide_eq_true_eq, and_assoc]
  · intro reg reg' payload fid now st sid rid h hst hsid
    obtain ⟨pst, psid, psc, prs, pib⟩ := payload
    simp only at hst hsid
    subst hst hsid
    cases psc with
    | none => simp [create_revocation_request] at h
    | some sc =>
      simp only [create_revocation_request] at h
      split_ifs at h
      simp only [Except.ok.injEq, Prod.mk.injEq] at h
      obtain ⟨hreg, -⟩ := h
      subst hreg
      simp [is_subject_revoked, List.any_append]
  · intro reg st sid hall
    simp only [is_subject_revoked, List.any_eq_false, Bool.and_eq_true,
      Bool.or_eq_true, decide_eq_true_eq]
    intro p hp
    rintro ⟨⟨h1, h2⟩, h3⟩
    have hf := hall p hp h1 h2
    rcases h3 with h3 | h3 <;> rw [hf] at h3 <;> exact absurd h3 (by decide)

/-- C6 witness: a concrete created (`pending`) record makes the subject
revoked, and a subject whose only record is `failed` is not revoked. -/
theorem C6_witness :
    is_subject_revoked [("rev-1", pendingRec)] "user" "user-123" = true ∧
    is_subject_revoked [("rev-2", failedRec)] "user" "user-123" = false := by
  constructor
  · exact C6_is_subject_revoked_characterization.2.1 [] [("rev-1", pendingRec)]
      samplePayload "rev-1" 0 "user" "user-123" "rev-1" rfl rfl rfl
  · exact C6_is_subject_revoked_characterization.2.2 [("rev-2", failedRec)]
      "user" "user-123" (by decide)

/-! ## C7 — `check_target_authorized` -/

/-- C7: `check_target_authorized` returns false without touching the
registry when the record is missing or not `active`; on an `active`
record whose expiry is strictly past it returns false and leaves the
record in `expired` status (the observable side effect); otherwise it
returns exactly the case-sensitive membership of the target in
`approved_targets`, with the registry unchanged. -/
theorem C7_check_target_authorized :
    ∀ (reg : IntRegistry) (iid target : String) (now : Int),
      (reg.lookup iid = none →
        check_target_authorized reg iid target now = (false, reg)) ∧
      (∀ r, reg.lookup iid = some r → r.status ≠ "active" →
        check_target_authorized reg iid target now = (false, reg)) ∧
      (∀ r e, reg.lookup iid = some r → r.status = "active" →
        r.expires_at_us = some e → now > e →
        check_target_authorized reg iid target now =
          (false, reg.update iid { r with status := "expired" }) ∧
        (reg.update iid { r with status := "expired" }).lookup iid =
          some { r with status := "expired" }) ∧
      (∀ r, reg.lookup iid = some r → r.status = "active" →
        (∀ e, r.expires_at_us = some e → now ≤ e) →
        check_target_authorized reg iid target now =
          (r.approved_targets.contains target, reg) ∧
        (r.approved_targets.contains target = true ↔ target ∈ r.approved_targets)) := by
  intro reg iid target now
  refine ⟨?_, ?_, ?_, ?_⟩
  · intro hl
    simp [check_target_authorized, hl]
  · intro r hl hs
    simp [check_target_authorized, hl, hs]
  · intro r e hl hs he hnow
    refine ⟨?_, int_lookup_update_self reg iid r _ hl⟩
    simp [check_target_authorized, hl, hs, he, hnow]
  · intro r hl hs hexp
    constructor
    · cases he : r.expires_at_us with
      | none => simp [check_target_authorized, hl, hs, he]
      | some e =>
        have : ¬ now > e := not_lt.mpr (hexp e he)
        simp [check_target_authorized, hl, hs, he, this]
    · simp [List.elem_iff]

/-- C7 witness: instantiated on a one-record registry in each shape —
missing id, pending record, expired active record (status flips to
`expired`), and active record queried for an approved and an unapproved
target. -/
theorem C7_witness :
    check_target_authorized [] "int-1" "https://api.example.com/a" 0 = (false, []) ∧
    check_target_authorized [("int-1", intPending)] "int-1"
      "https://api.example.com/a" 0 = (false, [("int-1", intPending)]) ∧
    check_target_authorized [("int-1", intActiveExpiring)] "int-1"
      "https://api.example.com/a" 3000000 =
      (false, [("int-1", { intActiveExpiring with status := "expired" })]) ∧
    check_target_authorized [("int-1", intActive)] "int-1"
      "https://api.example.com/a" 3000000 = (true, [("int-1", intActive)]) ∧
    check_target_authorized [("int-1", intActive)] "int-1"
      "https://api.example.com/b" 3000000 = (false, [("int-1", intActive)]) := by
  refine ⟨?_, ?_, ?_, ?_, ?_⟩
  · exact (C7_check_target_authorized [] "int-1" "https://api.example.com/a" 0).1 rfl
  · exact (C7_check_target_authorized [("int-1", intPending)] "int-1"
      "https://api.example.com/a" 0).2.1 intPending rfl (by decide)
  · exact ((C7_check_target_authorized [("int-1", intActiveExpiring)] "int-1"
      "https://api.example.com/a" 3000000).2.2.1 intActiveExpiring 2000000
      rfl rfl rfl (by decide)).1
  · have := ((C7_check_target_authorized [("int-1", intActive)] "int-1"
      "https://api.example.com/a" 3000000).2.2.2 intActive rfl rfl
      (by intro e he; simp [intActive, intPending, newIntegrationRecord] at he)).1
    simpa using this
  · have := ((C7_check_target_authorized [("int-1", intActive)] "int-1"
      "https://api.example.com/b" 3000000).2.2.2 intActive rfl rfl
      (by intro e he; simp [intActive, intPending, newIntegrationRecord] at he)).1
    simpa using this

/-! ## C10 — `approve_integration` with non-positive `expiry_days` -/

/-- C10: on a `pending` record, `approve_integration` with
`expiry_days = 0` or negative succeeds exactly as if no expiry had been
supplied (`if expiry_days and expiry_days > 0` fails either way):
`expires_at` is `none`, the record becomes `active`, and a later
`check_target_authorized` at any time never takes the expiry branch —
the record never becomes `expired` and the answer is plain target
membership. -/
theorem C10_approve_nonpositive_expiry :
    ∀ (reg : IntRegistry) (iid : String) (targets : List String) (d : Int)
      (approver : String) (now : Int) (r r' : IntegrationRecord),
      reg.lookup iid = some r → r.status = "pending" → d ≤ 0 →
      r' = { r with
             approved_targets := targets
             approved_by := some approver
             approved_at_us := some now
             expires_at_us := none
             status := "active" } →
      approve_integration reg iid targets (some d) approver now =
        approve_integration reg iid targets none approver now ∧
      approve_integration reg iid targets (some d) approver now =
        .ok (reg.update iid r') ∧
      r'.status = "active" ∧ r'.expires_at_us = none ∧
      (∀ (now2 : Int) (target : String),
        check_target_authorized (reg.update iid r') iid target now2 =
          (targets.contains target, reg.update iid r')) := by
  intro reg iid targets d approver now r r' hl hs hd hr'
  have hdpos : ¬ (d ≠ 0 ∧ d > 0) := by
    rintro ⟨-, hgt⟩
    omega
  refine ⟨?_, ?_, ?_, ?_, ?_⟩
  · simp [approve_integration, hl, hs, hdpos]
  · simp [approve_integration, hl, hs, hdpos, hr']
  · simp [hr']
  · simp [hr']
  · intro now2 target
    have hl' := int_lookup_update_self reg iid r r' hl
    subst hr'
    simp [check_target_authorized, hl']

/-- C10 witness: approving the pending fixture with `expiry_days = 0` and
with `expiry_days = -30` both yield the same never-expiring `active`
record, authorized by membership at any later time. -/
theorem C10_witness :
    approve_integration [("int-1", intPending)] "int-1"
      ["https://api.example.com/a"] (some 0) "admin@example.com" 1000000 =
      approve_integration [("int-1", intPending)] "int-1"
        ["https://api.example.com/a"] none "admin@example.com" 1000000 ∧
    approve_integration [("int-1", intPending)] "int-1"
      ["https://api.example.com/a"] (some (-30)) "admin@example.com" 1000000 =
      approve_integration [("int-1", intPending)] "int-1"
        ["https://api.example.com/a"] none "admin@example.com" 1000000 ∧
    check_target_authorized [("int-1", intActive)] "int-1"
      "https://api.example.com/a" 999999999999 =
      (true, [("int-1", intActive)]) := by
  refine ⟨?_, ?_, ?_⟩
  · exact (C10_approve_nonpositive_expiry [("int-1", intPending)] "int-1"
      ["https://api.example.com/a"] 0 "admin@example.com" 1000000 intPending
      intActive rfl rfl (by decide) (by decide)).1
  · exact (C10_approve_nonpositive_expiry [("int-1", intPending)] "int-1"
      ["https://api.example.com/a"] (-30) "admin@example.com" 1000000 intPending
      intActive rfl rfl (by decide) (by decide)).1
  · have := (C10_approve_nonpositive_expiry [("int-1", intPending)] "int-1"
      ["https://api.example.com/a"] 0 "admin@example.com" 1000000 intPending
      intActive rfl rfl (by decide) (by decide)).2.2.2.2 999999999999
      "https://api.example.com/a"
    simpa using this

/-! ## C9 — `set_authorized_tools` / `get_authorized_tools` -/

/-- A set difference against a superset is empty. -/
theorem sortedSetDiff_eq_nil (a b : List String) (h : ∀ x ∈ a, x ∈ b) :
    sortedSetDiff a b = [] := by
  have hf : (a.filter fun x => ¬ b.contains x) = [] := by
    rw [List.filter_eq_nil_iff]
    intro x hx
    simp [List.elem_iff]
    exact h x hx
  unfold sortedSetDiff
  rw [hf]
  rfl

/-- C9: writing an agent's tool list and reading it back yields exactly
that list; a second write with a set-equal tool list produces an empty
diff (`added = removed = []`) while still appending one entry to the
agent's change history. -/
theorem C9_set_then_get :
    ∀ (st : AuthState) (agent : String) (tools tools2 : List String)
      (reason reason2 : Option String) (ts ts2 : String),
      get_authorized_tools (set_authorized_tools st agent tools reason ts).1 agent
        = tools ∧
      ((∀ x, x ∈ tools2 ↔ x ∈ tools) →
        (set_authorized_tools (set_authorized_tools st agent tools reason ts).1
            agent tools2 reason2 ts2).2.added = [] ∧
        (set_authorized_tools (set_authorized_tools st agent tools reason ts).1
            agent tools2 reason2 ts2).2.removed = [] ∧
        ((alookup (set_authorized_tools (set_authorized_tools st agent tools reason ts).1
            agent tools2 reason2 ts2).1.history agent).getD []).length =
          ((alookup (set_authorized_tools st agent tools reason ts).1.history
            agent).getD []).length + 1) := by
  intro st agent tools tools2 reason reason2 ts ts2
  constructor
  · simp [get_authorized_tools, set_authorized_tools, alookup_astore_self]
  · intro hmem
    have hprev : alookup (astore st.store agent tools) agent = some tools :=
      alookup_astore_self st.store agent tools
    refine ⟨?_, ?_, ?_⟩
    · simp only [set_authorized_tools, hprev, Option.getD_some]
      exact sortedSetDiff_eq_nil tools2 tools fun x hx => (hmem x).mp hx
    · simp only [set_authorized_tools, hprev, Option.getD_some]
      exact sortedSetDiff_eq_nil tools tools2 fun x hx => (hmem x).mpr hx
    · simp only [set_authorized_tools, hprev, Option.getD_some]
      simp [alookup_astore_self]

/-- C9 witness: a concrete double write of the same two tools on the
empty store. -/
theorem C9_witness :
    get_authorized_tools
      (set_authorized_tools ⟨[], []⟩ "agent-1" ["t1", "t2"] none "ts1").1 "agent-1"
      = ["t1", "t2"] ∧
    (set_authorized_tools
      (set_authorized_tools ⟨[], []⟩ "agent-1" ["t1", "t2"] none "ts1").1
      "agent-1" ["t1", "t2"] none "ts2").2.added = [] ∧
    (set_authorized_tools
      (set_authorized_tools ⟨[], []⟩ "agent-1" ["t1", "t2"] none "ts1").1
      "agent-1" ["t1", "t2"] none "ts2").2.removed = [] ∧
    ((alookup (set_authorized_tools
      (set_authorized_tools ⟨[], []⟩ "agent-1" ["t1", "t2"] none "ts1").1
      "agent-1" ["t1", "t2"] none "ts2").1.history "agent-1").getD []).length = 2 := by
  have h := C9_set_then_get ⟨[], []⟩ "agent-1" ["t1", "t2"] ["t1", "t2"]
    none none "ts1" "ts2"
  have h2 := h.2 fun x => Iff.rfl
  refine ⟨h.1, h2.1, h2.2.1, ?_⟩
  rw [h2.2.2]
  decide

/-! ## C2 — terminal statuses of revocation records -/

/-- C2 counterexample: on a record whose status is the terminal
`failed`, `mark_revocation_propagated` is not an error — it succeeds and
moves the record to `complete` (only the `complete` status is guarded),
so a `failed` record is not immutable. -/
theorem C2_counterexample :
    failedRec.status = "failed" ∧
    mark_revocation_propagated [("rev-2", failedRec)] "rev-2" 5000000 =
      .ok ([("rev-2", propagateUpdate failedRec 5000000)],
           propagateUpdate failedRec 5000000) ∧
    (propagateUpdate failedRec 5000000).status = "complete" := by
  exact ⟨rfl, rfl, rfl⟩

/-- `propagateUpdate` always lands in `complete`. -/
theorem propagateUpdate_status (r : RevocationRecord) (now : Int) :
    (propagateUpdate r now).status = "complete" := rfl

/-- C2 amended: only the `complete` status is guarded.
`mark_revocation_propagated` on a `complete` record (in particular, a
second call on the same id) is an error leaving the registry unchanged;
but on a `failed` record it succeeds and moves it to `complete`, and
`mark_revocation_failed` succeeds on any existing record — including a
`complete` one — setting its status to `failed`. -/
theorem C2_only_complete_is_guarded :
    ∀ (reg : RevRegistry) (id : String) (now now2 : Int) (err : String)
      (r : RevocationRecord),
      reg.lookup id = some r →
      ((r.status = "complete" →
        mark_revocation_propagated reg id now =
          .error "Revocation already propagated") ∧
       (∀ reg' rec', mark_revocation_propagated reg id now = .ok (reg', rec') →
        rec'.status = "complete" ∧
        mark_revocation_propagated reg' id now2 =
          .error "Revocation already propagated") ∧
       (r.status = "failed" →
        mark_revocation_propagated reg id now =
          .ok (reg.update id (propagateUpdate r now), propagateUpdate r now) ∧
        (propagateUpdate r now).status = "complete") ∧
       (mark_revocation_failed reg id err =
          .ok (reg.update id { r with status := "failed", error := some err },
               { r with status := "failed", error := some err }))) := by
  intro reg id now now2 err r hl
  refine ⟨?_, ?_, ?_, ?_⟩
  · intro hc
    simp [mark_revocation_propagated, hl, hc]
  · intro reg' rec' h
    simp only [mark_revocation_propagated, hl] at h
    split_ifs at h with hc
    simp only [Except.ok.injEq, Prod.mk.injEq] at h
    obtain ⟨hreg, hrec⟩ := h
    subst hreg hrec
    have hl' := rev_lookup_update_self reg id r (propagateUpdate r now) hl
    refine ⟨rfl, ?_⟩
    simp [mark_revocation_propagated, hl', propagateUpdate_status]
  · intro hf
    constructor
    · have hc : ¬ r.status = "complete" := by rw [hf]; decide
      simp [mark_revocation_propagated, hl, hc]
    · rfl
  · simp [mark_revocation_failed, hl]

/-- C2 witness: the guarded and unguarded paths at concrete records —
propagating a `complete` record errors, propagating twice errors,
propagating a `failed` record succeeds into `complete`, and failing a
`complete` record succeeds into `failed`. -/
theorem C2_witness :
    mark_revocation_propagated [("rev-3", completeRec)] "rev-3" 1000 =
      .error "Revocation already propagated" ∧
    mark_revocation_propagated
      [("rev-1", propagateUpdate pendingRec 1000)] "rev-1" 2000 =
      .error "Revocation already propagated" ∧
    mark_revocation_propagated [("rev-2", failedRec)] "rev-2" 5000000 =
      .ok ([("rev-2", propagateUpdate failedRec 5000000)],
           propagateUpdate failedRec 5000000) ∧
    mark_revocation_failed [("rev-3", completeRec)] "rev-3" "boom" =
      .ok ([("rev-3", { completeRec with status := "failed", error := some "boom" })],
           { completeRec with status := "failed", error := some "boom" }) := by
  refine ⟨?_, ?_, ?_, ?_⟩
  · exact (C2_only_complete_is_guarded [("rev-3", completeRec)] "rev-3" 1000 0 "e"
      completeRec rfl).1 rfl
  · exact ((C2_only_complete_is_guarded [("rev-1", pendingRec)] "rev-1" 1000 2000 "e"
      pendingRec rfl).2.1 [("rev-1", propagateUpdate pendingRec 1000)]
      (propagateUpdate pendingRec 1000) rfl).2
  · exact ((C2_only_complete_is_guarded [("rev-2", failedRec)] "rev-2" 5000000 0 "e"
      failedRec rfl).2.2.1 rfl).1
  · exact (C2_only_complete_is_guarded [("rev-3", completeRec)] "rev-3" 0 0 "boom"
      completeRec rfl).2.2.2

/-! ## C3 — SLA verdict after propagation -/

/-- C3 counterexample: a pending record initiated at 0 and propagated at
300 000 500 µs (target 300 s). The stored `propagation_latency_ms` is
`300000 ≤ 300 · 1000`, yet `sla_met` is false, because the code compares
seconds before the millisecond truncation — so
`sla_met == (latency_ms <= sla_target_seconds * 1000)` fails. -/
theorem C3_counterexample :
    ((mark_revocation_propagated [("rev-1", pendingRec)] "rev-1"
        300000500).toOption.map fun p =>
          (p.2.sla_met, p.2.propagation_latency_ms)) =
      some (some false, some 300000) ∧
    (300000 : Int) ≤ DEFAULT_SLA_TARGET_SECONDS * 1000 := by
  exact ⟨rfl, by decide⟩

/-- C3 amended: after a successful `mark_revocation_propagated` on a
pending record (initiated no later than the propagation instant), the
stored latency is non-negative, `sla_met` holds exactly when the exact
latency in microseconds is within `sla_target_seconds · 10^6` (the
seconds-level comparison the code performs), and `sla_met` still implies
`propagation_latency_ms ≤ sla_target_seconds * 1000` — only the converse
of the claimed equivalence fails, on latencies inside the truncated
millisecond. -/
theorem C3_sla_verdict :
    ∀ (reg : RevRegistry) (id : String) (now : Int) (r : RevocationRecord),
      reg.lookup id = some r → r.status = "pending" →
      r.initiated_at_us ≤ now →
      mark_revocation_propagated reg id now =
        .ok (reg.update id (propagateUpdate r now), propagateUpdate r now) ∧
      (propagateUpdate r now).propagation_latency_ms =
        some (Int.tdiv (now - r.initiated_at_us) 1000) ∧
      0 ≤ Int.tdiv (now - r.initiated_at_us) 1000 ∧
      ((propagateUpdate r now).sla_met = some true ↔
        now - r.initiated_at_us ≤ r.sla_target_seconds * 1000000) ∧
      ((propagateUpdate r now).sla_met = some true →
        Int.tdiv (now - r.initiated_at_us) 1000 ≤ r.sla_target_seconds * 1000) := by
  intro reg id now r hl hp hinit
  have hc : ¬ r.status = "complete" := by rw [hp]; decide
  have h0 : (0 : Int) ≤ now - r.initiated_at_us := by omega
  have htd : Int.tdiv (now - r.initiated_at_us) 1000 = (now - r.initiated_at_us) / 1000 :=
    Int.tdiv_eq_ediv h0 (by norm_num)
  refine ⟨by simp [mark_revocation_propagated, hl, hc], rfl, ?_, ?_, ?_⟩
  · rw [htd]
    positivity
  · simp [propagateUpdate]
  · intro hmet
    have hle : now - r.initiated_at_us ≤ r.sla_target_seconds * 1000000 := by
      simpa [propagateUpdate] using hmet
    rw [htd]
    have h2 : (now - r.initiated_at_us) / 1000 ≤ r.sla_target_seconds * 1000000 / 1000 :=
      Int.ediv_le_ediv (by norm_num) hle
    have h3 : r.sla_target_seconds * 1000000 / 1000 = r.sla_target_seconds * 1000 := by
      omega
    omega

/-- C3 witness: a fast concrete propagation — latency 1 000 000 µs,
stored `propagation_latency_ms = 1000 ≥ 0`, SLA met. -/
theorem C3_witness :
    mark_revocation_propagated [("rev-1", pendingRec)] "rev-1" 1000000 =
      .ok ([("rev-1", propagateUpdate pendingRec 1000000)],
           propagateUpdate pendingRec 1000000) ∧
    (propagateUpdate pendingRec 1000000).propagation_latency_ms = some 1000 ∧
    (propagateUpdate pendingRec 1000000).sla_met = some true ∧
    (1000 : Int) ≤ pendingRec.sla_target_seconds * 1000 := by
  have h := C3_sla_verdict [("rev-1", pendingRec)] "rev-1" 1000000 pendingRec
    rfl rfl (by decide)
  refine ⟨h.1, ?_, ?_, ?_⟩
  · rw [h.2.1]
    rfl
  · exact h.2.2.2.1.mpr (by decide)
  · decide

/-! ## C4 — validation of `requestedTargets` -/

/-- C4 counterexample: `request_integration` itself does not validate
non-emptiness — on a payload whose `requestedTargets` is the empty list
(every required key present) it succeeds and creates a `pending` record
with empty `requested_targets`, instead of failing with a validation
error and leaving the registry unchanged. -/
theorem C4_counterexample :
    request_integration [] emptyTargetsPayload "int-9" 0 =
      .ok ([("int-9", newIntegrationRecord "int-9" "test-integration"
        "Some reason" [] 0)], "int-9") ∧
    (newIntegrationRecord "int-9" "test-integration" "Some reason" [] 0).status =
      "pending" := by
  exact ⟨rfl, rfl⟩

/-- C4 amended: the non-empty-list validation lives one layer up, in the
API handler `handle_integration_request`: the handler rejects an empty
`requestedTargets` with a validation error before any record is created
(an error leaves the registry unchanged), and with a non-empty list it
creates a `pending` record; `request_integration` itself checks only
key presence and accepts the empty list. -/
theorem C4_handler_validates_targets :
    (∀ (reg : IntRegistry) (nm ju fid : String) (now : Int),
      handle_integration_request reg
        { name := some nm, justification := some ju, requestedTargets := some [] }
        fid now = .error "requestedTargets cannot be empty") ∧
    (∀ (reg : IntRegistry) (nm ju fid : String) (targets : List String) (now : Int),
      targets ≠ [] →
      handle_integration_request reg
        { name := some nm, justification := some ju, requestedTargets := some targets }
        fid now =
        .ok (reg ++ [(fid, newIntegrationRecord fid nm ju targets now)], fid) ∧
      (newIntegrationRecord fid nm ju targets now).status = "pending") ∧
    (∀ (reg : IntRegistry) (nm ju fid : String) (now : Int),
      request_integration reg
        { name := some nm, justification := some ju, requestedTargets := some [] }
        fid now =
        .ok (reg ++ [(fid, newIntegrationRecord fid nm ju [] now)], fid)) := by
  refine ⟨?_, ?_, ?_⟩
  · intro reg nm ju fid now
    simp [handle_integration_request]
  · intro reg nm ju fid targets now ht
    exact ⟨by simp [handle_integration_request, request_integration, ht], rfl⟩
  · intro reg nm ju fid now
    simp [request_integration]

/-- C4 witness: the handler rejects the concrete empty-targets payload
and accepts a one-target payload, creating the `pending` record. -/
theorem C4_witness :
    handle_integration_request [] emptyTargetsPayload "int-9" 0 =
      .error "requestedTargets cannot be empty" ∧
    handle_integration_request []
      { name := some "test-integration"
        justification := some "Some reason"
        requestedTargets := some ["https://api.example.com"] } "int-9" 0 =
      .ok ([("int-9", newIntegrationRecord "int-9" "test-integration"
        "Some reason" ["https://api.example.com"] 0)], "int-9") := by
  constructor
  · exact C4_handler_validates_targets.1 [] "test-integration" "Some reason" "int-9" 0
  · exact (C4_handler_validates_targets.2.1 [] "test-integration" "Some reason"
      "int-9" ["https://api.example.com"] 0 (by decide)).1

/-! ## C5 — `compute_least_privilege_score` -/

/-- The resource loop counts, per resource entry, the bare-wildcard
entries and the narrow (colon-qualified, wildcard-free) entries. -/
theorem resource_fold (rs : List String) (acc : ScoreAcc) :
    rs.foldl resourceStep acc =
      ⟨acc.wildcard_action_count,
       acc.wildcard_resource_count + (rs.countP fun r => r = "*"),
       acc.narrow_resource_count + (rs.countP fun r => r ≠ "*" && isNarrowResource r),
       acc.total_statements⟩ := by
  induction rs generalizing acc with
  | nil =>
    obtain ⟨wa, wr, nr, t⟩ := acc
    simp
  | cons r rs ih =>
    obtain ⟨wa, wr, nr, t⟩ := acc
    simp only [List.foldl_cons]
    by_cases h1 : r = "*"
    · have h4 : isNarrowResource r = false := by
        subst h1
        rfl
      rw [show resourceStep ⟨wa, wr, nr, t⟩ r = ⟨wa, wr + 1, nr, t⟩ by
        simp [resourceStep, h1]]
      rw [ih]
      simp [List.countP_cons, h1, h4]
      omega
    · by_cases h2 : isNarrowResource r = true
      · rw [show resourceStep ⟨wa, wr, nr, t⟩ r = ⟨wa, wr, nr + 1, t⟩ by
          simp [resourceStep, h1, h2]]
        rw [ih]
        simp [List.countP_cons, h1, h2]
        omega
      · have h4 : isNarrowResource r = false := by
          simpa using h2
        rw [show resourceStep ⟨wa, wr, nr, t⟩ r = ⟨wa, wr, nr, t⟩ by
          simp [resourceStep, h1, h4]]
        rw [ih]
        simp [List.countP_cons, h1, h4]

/-- The statement loop accumulates, over the `Allow` statements, the
wildcard-action count, the per-entry wildcard-resource and
narrow-resource counts, and the number of `Allow` statements. -/
theorem stmt_fold (stmts : List Statement) (acc : ScoreAcc) :
    stmts.foldl scoreStmtStep acc =
      ⟨acc.wildcard_action_count + ((stmts.filter fun s => s.effect = "Allow").map
          fun s => s.action.toList.countP fun a => a.data.contains '*').sum,
       acc.wildcard_resource_count + ((stmts.filter fun s => s.effect = "Allow").map
          fun s => s.resource.toList.countP fun r => r = "*").sum,
       acc.narrow_resource_count + ((stmts.filter fun s => s.effect = "Allow").map
          fun s => s.resource.toList.countP fun r => r ≠ "*" && isNarrowResource r).sum,
       acc.total_statements + (stmts.filter fun s => s.effect = "Allow").length⟩ := by
  induction stmts generalizing acc with
  | nil =>
    obtain ⟨wa, wr, nr, t⟩ := acc
    simp
  | cons s stmts ih =>
    obtain ⟨wa, wr, nr, t⟩ := acc
    simp only [List.foldl_cons]
    by_cases he : s.effect = "Allow"
    · have hstep : scoreStmtStep ⟨wa, wr, nr, t⟩ s =
          ⟨wa + (s.action.toList.countP fun a => a.data.contains '*'),
           wr + (s.resource.toList.countP fun r => r = "*"),
           nr + (s.resource.toList.countP fun r => r ≠ "*" && isNarrowResource r),
           t + 1⟩ := by
        simp only [scoreStmtStep, he]
        rw [if_neg (by simp [he])]
        rw [resource_fold]
      rw [hstep, ih]
      simp [List.filter_cons, he]
      omega
    · have hstep : scoreStmtStep ⟨wa, wr, nr, t⟩ s = ⟨wa, wr, nr, t⟩ := by
        simp [scoreStmtStep, he]
      rw [hstep, ih]
      simp [List.filter_cons, he]

/-- The nested per-document loop is the flat loop over the concatenated
statement lists. -/
theorem docs_fold (docs : List PolicyDoc) (acc : ScoreAcc) :
    docs.foldl (fun acc doc => doc.statement.foldl scoreStmtStep acc) acc =
      (docs.foldr (fun d acc => d.statement ++ acc) []).foldl scoreStmtStep acc := by
  induction docs generalizing acc with
  | nil => rfl
  | cons d docs ih =>
    simp only [List.foldl_cons, List.foldr_cons, List.foldl_append]
    rw [ih]

/-- C5 counterexample: one document with two `Allow` statements — one
with two narrow resources, one with the bare `"*"` resource. The code
scores it 100 (the narrow bonus counts resource entries: 2/2 → full 10
bonus), while the reference of the spec's words scores it 95 (bonus from
the fraction of statements with a narrow resource: 1/2 → 5); the claimed
equality with the reference fails. -/
theorem C5_counterexample :
    compute_least_privilege_score [bonusDoc] = 100 ∧
    scoreLeastPrivilege_spec [bonusDoc] = 95 ∧
    compute_least_privilege_score [bonusDoc] ≠ scoreLeastPrivilege_spec [bonusDoc] := by
  have hacc : [bonusDoc].foldl (fun acc doc => doc.statement.foldl scoreStmtStep acc)
      ⟨0, 0, 0, 0⟩ = (⟨0, 1, 2, 2⟩ : ScoreAcc) := rfl
  have hc : compute_least_privilege_score [bonusDoc] = 100 := by
    simp only [compute_least_privilege_score]
    rw [hacc]
    norm_num [pymin, pymax]
  have hwa : ((allowStatements [bonusDoc]).map
      fun s => s.action.toList.countP fun a => a.data.contains '*').sum = 0 := rfl
  have hwr : ((allowStatements [bonusDoc]).countP fun s => s.resource.toList = ["*"]) = 1 :=
    rfl
  have hnr : ((allowStatements [bonusDoc]).countP
      fun s => s.resource.toList.any isNarrowResource) = 1 := rfl
  have hlen : (allowStatements [bonusDoc]).length = 2 := rfl
  have hs : scoreLeastPrivilege_spec [bonusDoc] = 95 := by
    simp only [scoreLeastPrivilege_spec]
    rw [hwa, hwr, hnr, hlen]
    norm_num [pymin, pymax]
  refine ⟨hc, hs, ?_⟩
  rw [hc, hs]
  norm_num

/-- C5 amended: `compute_least_privilege_score` equals the entrywise
reference — 100, minus 5 per wildcard-containing action of an `Allow`
statement, minus 10 per resource entry equal to `"*"` (not per
statement), plus `min(10, 10 · narrow resource entries / Allow
statements)` counting narrow entries (not statements), clamped to
`[0, 100]`. It is a pure function of the documents, zero documents score
exactly 100, and the spec's end-to-end example (`Action "s3:*"`,
`Resource "*"`) scores 85 < 90. -/
theorem C5_score_entrywise :
    (∀ docs : List PolicyDoc,
      compute_least_privilege_score docs = scoreLeastPrivilege_entrywise docs) ∧
    compute_least_privilege_score [] = 100 ∧
    compute_least_privilege_score [s3Doc] = 85 ∧
    compute_least_privilege_score [s3Doc] < 90 := by
  have hmain : ∀ docs : List PolicyDoc,
      compute_least_privilege_score docs = scoreLeastPrivilege_entrywise docs := by
    intro docs
    simp only [compute_least_privilege_score, scoreLeastPrivilege_entrywise,
      allowStatements]
    rw [docs_fold, stmt_fold]
    simp
  have hs3 : compute_least_privilege_score [s3Doc] = 85 := by
    have hacc : [s3Doc].foldl (fun acc doc => doc.statement.foldl scoreStmtStep acc)
        ⟨0, 0, 0, 0⟩ = (⟨1, 1, 0, 1⟩ : ScoreAcc) := rfl
    simp only [compute_least_privilege_score]
    rw [hacc]
    norm_num [pymin, pymax]
  refine ⟨hmain, ?_, hs3, ?_⟩
  · simp only [compute_least_privilege_score]
    norm_num [pymin, pymax]
  · rw [hs3]
    norm_num

/-! ## C8 — determinism and order sensitivity of the integrity hash -/

/-- Prepending to the accumulator hoists out of the join fold. -/
theorem joinPipe_fold_hoist (rest : List (List Char)) (x s : List Char) :
    rest.foldl (fun acc g => acc ++ '|' :: g) (x ++ s) =
      x ++ rest.foldl (fun acc g => acc ++ '|' :: g) s := by
  induction rest generalizing s with
  | nil => rfl
  | cons g rest ih =>
    simp only [List.foldl_cons, List.append_assoc]
    exact ih (s ++ '|' :: g)

/-- The character-level join, unfolded one field at a time. -/
theorem joinPipe_cons_cons (x y : List Char) (rest : List (List Char)) :
    joinPipe (x :: y :: rest) = x ++ '|' :: joinPipe (y :: rest) := by
  show (y :: rest).foldl (fun acc g => acc ++ '|' :: g) x = _
  simp only [List.foldl_cons]
  have h1 : x ++ '|' :: y = x ++ ('|' :: y) := rfl
  rw [h1, joinPipe_fold_hoist rest x ('|' :: y)]
  have h2 : ('|' :: y : List Char) = ['|'] ++ y := rfl
  rw [h2, joinPipe_fold_hoist rest ['|'] y]
  rfl

/-- The string-level join fold, seen on the underlying character
lists. -/
theorem join_fold_data (rest : List String) (a : String) :
    (rest.foldl (fun acc g => acc ++ "|" ++ g) a).data =
      (rest.map String.data).foldl (fun acc g => acc ++ '|' :: g) a.data := by
  induction rest generalizing a with
  | nil => rfl
  | cons g rest ih =>
    simp only [List.foldl_cons, List.map_cons]
    rw [ih (a ++ "|" ++ g)]
    congr 1
    simp [String.data_append]

/-- `integrity_preimage` seen on the underlying character lists is
`joinPipe`. -/
theorem preimage_data (fields : List String) :
    (integrity_preimage fields).data = joinPipe (fields.map String.data) := by
  cases fields with
  | nil => rfl
  | cons f rest => exact join_fold_data rest f

/-- Splitting at the first delimiter: two delimiter-free prefixes before
a `'|'` must coincide, together with the remainders. -/
theorem pipe_split (a : List Char) :
    ∀ (b x y : List Char), '|' ∉ a → '|' ∉ b →
      a ++ '|' :: x = b ++ '|' :: y → a = b ∧ x = y := by
  induction a with
  | nil =>
    intro b x y _ hb h
    cases b with
    | nil => simpa using h
    | cons c b' =>
      simp only [List.nil_append, List.cons_append, List.cons.injEq] at h
      refine absurd ?_ hb
      rw [h.1]
      exact List.mem_cons_self c b'
  | cons c a' ih =>
    intro b x y ha hb h
    cases b with
    | nil =>
      simp only [List.cons_append, List.nil_append, List.cons.injEq] at h
      refine absurd ?_ ha
      rw [h.1]
      exact List.mem_cons_self '|' a'
    | cons d b' =>
      simp only [List.cons_append, List.cons.injEq] at h
      obtain ⟨hcd, h'⟩ := h
      have ha' : '|' ∉ a' := fun hm => ha (List.mem_cons_of_mem c hm)
      have hb' : '|' ∉ b' := fun hm => hb (List.mem_cons_of_mem d hm)
      obtain ⟨h1, h2⟩ := ih b' x y ha' hb' h'
      exact ⟨by rw [hcd, h1], h2⟩

/-- `joinPipe` is injective on equal-length lists of delimiter-free
fields. -/
theorem joinPipe_inj (l1 : List (List Char)) :
    ∀ (l2 : List (List Char)), l1.length = l2.length →
      (∀ x ∈ l1, '|' ∉ x) → (∀ x ∈ l2, '|' ∉ x) →
      joinPipe l1 = joinPipe l2 → l1 = l2 := by
  induction l1 with
  | nil =>
    intro l2 hlen _ _ _
    cases l2 with
    | nil => rfl
    | cons b l2' => simp at hlen
  | cons a l1' ih =>
    intro l2 hlen hf1 hf2 hj
    cases l2 with
    | nil => simp at hlen
    | cons b l2' =>
      cases l1' with
      | nil =>
        cases l2' with
        | nil =>
          have : a = b := hj
          rw [this]
        | cons c l2'' => simp at hlen
      | cons a2 l1'' =>
        cases l2' with
        | nil => simp at hlen
        | cons b2 l2'' =>
          rw [joinPipe_cons_cons, joinPipe_cons_cons] at hj
          have ha : '|' ∉ a := hf1 a (List.mem_cons_self a _)
          have hb : '|' ∉ b := hf2 b (List.mem_cons_self b _)
          obtain ⟨hab, hrest⟩ := pipe_split a b _ _ ha hb hj
          have hf1' : ∀ x ∈ a2 :: l1'', '|' ∉ x :=
            fun x hx => hf1 x (List.mem_cons_of_mem a hx)
          have hf2' : ∀ x ∈ b2 :: l2'', '|' ∉ x :=
            fun x hx => hf2 x (List.mem_cons_of_mem b hx)
          have hlen' : (a2 :: l1'').length = (b2 :: l2'').length := by
            simpa using hlen
          have := ih (b2 :: l2'') hlen' hf1' hf2' hrest
          rw [hab, this]

/-- A list of length at least two with pairwise-distinct elements is not
its own reverse. -/
theorem ne_reverse_of_pairwise_ne {α : Type} (l : List α)
    (hp : l.Pairwise (· ≠ ·)) (hl : 2 ≤ l.length) : l ≠ l.reverse := by
  cases l with
  | nil => simp at hl
  | cons a l' =>
    cases l' with
    | nil => simp at hl
    | cons b t =>
      intro he
      have h1 : (a :: b :: t).getLast? = some a := by
        conv_lhs => rw [he]
        simp
      rw [List.getLast?_cons_cons] at h1
      have h2 : a ∈ b :: t := List.mem_of_getLast?_eq_some h1
      rw [List.pairwise_cons] at hp
      exact (hp.1 a h2) rfl

/-- C8: `compute_integrity_hash` is a pure function, hence
deterministic; and on any list of length ≥ 2 of pairwise-distinct fields
none of which contains the delimiter `'|'`, the joined SHA-256 pre-image
of the fields differs from that of the reversed fields (order
sensitivity up to SHA-256 collisions, which no theorem can exclude). -/
theorem C8_hash_deterministic_order_sensitive :
    (∀ fields : List String,
      compute_integrity_hash fields = compute_integrity_hash fields) ∧
    (∀ fields : List String, (∀ f ∈ fields, '|' ∉ f.data) →
      fields.Pairwise (· ≠ ·) → 2 ≤ fields.length →
      integrity_preimage fields ≠ integrity_preimage fields.reverse) := by
  refine ⟨fun _ => rfl, ?_⟩
  intro fields hfree hp hl hcontra
  have h1 := congrArg String.data hcontra
  rw [preimage_data, preimage_data, List.map_reverse] at h1
  have hlen : (fields.map String.data).length =
      ((fields.map String.data).reverse).length := by simp
  have hfree1 : ∀ x ∈ fields.map String.data, '|' ∉ x := by
    intro x hx
    obtain ⟨f, hf, rfl⟩ := List.mem_map.mp hx
    exact hfree f hf
  have hfree2 : ∀ x ∈ (fields.map String.data).reverse, '|' ∉ x := by
    intro x hx
    exact hfree1 x (List.mem_reverse.mp hx)
  have heq := joinPipe_inj (fields.map String.data)
    ((fields.map String.data).reverse) hlen hfree1 hfree2 h1
  have hpd : (fields.map String.data).Pairwise (· ≠ ·) := by
    refine List.Pairwise.map String.data ?_ hp
    intro a b hab hd
    exact hab (by cases a; cases b; cases hd; rfl)
  have hl2 : 2 ≤ (fields.map String.data).length := by simpa
  exact ne_reverse_of_pairwise_ne (fields.map String.data) hpd hl2 heq

/-- C8 counterexample: for `fields = ["a|a", "a"]` — two distinct
fields, one containing the delimiter — the joined pre-images of the list
and its reverse are both `"a|a|a"`, so the hashes coincide and the
claimed order sensitivity over all distinct-field lists fails. -/
theorem C8_counterexample :
    (["a|a", "a"] : List String).Pairwise (· ≠ ·) ∧
    2 ≤ (["a|a", "a"] : List String).length ∧
    (["a|a", "a"] : List String).reverse = ["a", "a|a"] ∧
    integrity_preimage ["a|a", "a"] = integrity_preimage ["a", "a|a"] ∧
    compute_integrity_hash ["a|a", "a"] = compute_integrity_hash ["a", "a|a"] := by
  have hpre : integrity_preimage ["a|a", "a"] = integrity_preimage ["a", "a|a"] := by
    decide
  exact ⟨by decide, by decide, rfl, hpre, congrArg sha256Hex hpre⟩

/-- C8 witness: the order-sensitivity part applied at the concrete
delimiter-free field list `["a", "b"]`. -/
theorem C8_witness :
    (∀ f ∈ (["a", "b"] : List String), '|' ∉ f.data) ∧
    (["a", "b"] : List String).Pairwise (· ≠ ·) ∧
    2 ≤ (["a", "b"] : List String).length ∧
    integrity_preimage ["a", "b"] ≠
      integrity_preimage (["a", "b"] : List String).reverse := by
  exact ⟨by decide, by decide, by decide,
    C8_hash_deterministic_order_sensitive.2 ["a", "b"] (by decide) (by decide)
      (by decide)⟩

/-! ## C1 — integrity verification in `reconstruct_correlation_chain` -/

set_option maxRecDepth 40000 in
/-- C1: the code bug exhibited. The untampered constructed event's
stored hash equals the hash recomputed from the fixed construction field
order; after tampering with the `outcome` business field the stored hash
differs from the recomputed one — yet `reconstruct_correlation_chain`
reports no integrity failure for the chain (its check only flags an
*empty* stored hash and never recomputes), while returning the events
unaltered. The claim requires the tampered event's id in
`integrity_failures`. -/
theorem C1_reconstruct_does_not_recompute :
    c1Event.integrity_hash = recompute_audit_hash c1Event ∧
    c1Tampered.integrity_hash ≠ recompute_audit_hash c1Tampered ∧
    (reconstruct_correlation_chain "corr-1" [c1Tampered]).integrity_failures = [] ∧
    (reconstruct_correlation_chain "corr-1" [c1Tampered]).events = [c1Tampered] := by
  refine ⟨rfl, by decide, by decide, rfl⟩

end Governance
